import Mathlib

/-!
Verification of the zk-llm-gateway TypeScript SDK core against its
specification.

The development shallowly embeds the SDK's core modules:

* `src/tokenClass.ts` (the five-class size table),
* `src/padding.ts` (the ZKLG padding codec),
* `src/crypto.ts` (envelope sealing/opening with direction-separated keys),
* `src/tickets.ts` (the file-backed single-use ticket pool),
* `src/client.ts` (request assembly and reply interpretation).

Modelling conventions:

* Byte strings are `List Nat` (each entry a byte value).  Base64-coded wire
  fields (`eph_pubkey_b64`, `nonce_b64`, `ciphertext_b64`) are modelled by the
  byte strings they decode to: base64 is an external, injective coding layer
  and every claim under study speaks about the decoded bytes.
* External cryptographic primitives that live outside the repository
  (node:crypto) are abstracted: HMAC-SHA-256 and X25519 are function
  parameters, and ChaCha20-Poly1305 is the standard symbolic AEAD model in
  which a ciphertext remembers the key, nonce, AAD and plaintext it was
  produced from, and decryption succeeds exactly when key, nonce and AAD
  match (the functional behaviour guaranteed by the real AEAD).
* Randomness (the ephemeral keypair and nonces drawn inside `sealJson`) is
  passed in as explicit arguments, determinizing the functions.
* JavaScript exceptions are modelled with `Except SdkError`.
* JSON serialization of payload objects (`JSON.stringify` / `JSON.parse`)
  is abstracted as a `stringify`/`parse` function pair; "JSON-serializable
  payload" in the spec is the hypothesis `parse (stringify p) = some p`.
-/

set_option maxRecDepth 16384

namespace ZkGateway

/-- Error taxonomy of `src/errors.ts`.  Each constructor carries the message
text the TypeScript code raises (shortened to its static part where the code
interpolates an external library message).  `rangeErr` models the
`ERR_OUT_OF_RANGE` exception `Buffer.writeUInt32LE` raises for values above
`0xffffffff`; it is a built-in JavaScript error, not an SDK error class. -/
inductive SdkError where
  | invalidTokenClass (msg : String)
  | invalidGatewayPublicKey (msg : String)
  | base64Error (msg : String)
  | cryptoError (msg : String)
  | protocolError (msg : String)
  | invalidPadding (msg : String)
  | payloadTooLarge (actual limit : Nat)
  | ticketExhausted (msg : String)
  | httpError (status : Nat) (msg : String)
  | gatewayErrorJs (code message : String)
  | rangeErr (msg : String)
deriving Repr, DecidableEq

instance instDecEqExcept {ε α : Type} [DecidableEq ε] [DecidableEq α] : DecidableEq (Except ε α)
  | .ok a, .ok b =>
    if h : a = b then .isTrue (h ▸ rfl) else .isFalse fun c => h (Except.ok.inj c)
  | .error a, .error b =>
    if h : a = b then .isTrue (h ▸ rfl) else .isFalse fun c => h (Except.error.inj c)
  | .ok _, .error _ => .isFalse fun c => Except.noConfusion c
  | .error _, .ok _ => .isFalse fun c => Except.noConfusion c

/-- The five size classes of `src/tokenClass.ts` (`enum TokenClass`). -/
inductive TokenClass where
  | C256
  | C512
  | C1024
  | C2048
  | C4096
deriving Repr, DecidableEq

/-- The string value of each `TokenClass` enum member. -/
def className : TokenClass → String
  | .C256 => "c256"
  | .C512 => "c512"
  | .C1024 => "c1024"
  | .C2048 => "c2048"
  | .C4096 => "c4096"

/-- ASCII lowercasing, the fragment of JavaScript `String.prototype.toLowerCase`
relevant to the ASCII-only comparisons in `parseTokenClass`. -/
def asciiLower (s : String) : String :=
  String.mk (s.data.map fun c => if 'A' ≤ c ∧ c ≤ 'Z' then Char.ofNat (c.toNat + 32) else c)

/-- ASCII-whitespace fragment of the character class JavaScript
`String.prototype.trim` removes. -/
def isJsSpace (c : Char) : Bool :=
  c = ' ' ∨ c = '\t' ∨ c = '\n' ∨ c = '\r' ∨ c = '\x0b' ∨ c = '\x0c'

/-- JavaScript `trim()`: drop leading and trailing whitespace. -/
def jsTrim (s : String) : String :=
  String.mk (((s.data.dropWhile isJsSpace).reverse.dropWhile isJsSpace).reverse)

/-- `parseTokenClass` from `src/tokenClass.ts` (`value.trim().toLowerCase()`
followed by the five two-way comparisons). -/
def parseTokenClass (value : String) : Except SdkError TokenClass :=
  let v := asciiLower (jsTrim value)
  if v = "c256" ∨ v = "256" then .ok .C256
  else if v = "c512" ∨ v = "512" then .ok .C512
  else if v = "c1024" ∨ v = "1024" then .ok .C1024
  else if v = "c2048" ∨ v = "2048" then .ok .C2048
  else if v = "c4096" ∨ v = "4096" then .ok .C4096
  else .error (.invalidTokenClass (String.append "invalid token class: " value))

/-- `tokenClassId` from `src/tokenClass.ts`. -/
def tokenClassId : TokenClass → Nat
  | .C256 => 1
  | .C512 => 2
  | .C1024 => 3
  | .C2048 => 4
  | .C4096 => 5

/-- `maxPromptBytes` from `src/tokenClass.ts`. -/
def maxPromptBytes : TokenClass → Nat
  | .C256 => 2 * 1024
  | .C512 => 4 * 1024
  | .C1024 => 8 * 1024
  | .C2048 => 16 * 1024
  | .C4096 => 32 * 1024

/-- `requestPaddedLen` from `src/tokenClass.ts`. -/
def requestPaddedLen : TokenClass → Nat
  | .C256 => 8 * 1024
  | .C512 => 12 * 1024
  | .C1024 => 20 * 1024
  | .C2048 => 36 * 1024
  | .C4096 => 68 * 1024

/-- `responsePaddedLen` from `src/tokenClass.ts`. -/
def responsePaddedLen : TokenClass → Nat
  | .C256 => 8 * 1024
  | .C512 => 16 * 1024
  | .C1024 => 32 * 1024
  | .C2048 => 64 * 1024
  | .C4096 => 128 * 1024

/-- `maxOutputTokensHint` from `src/tokenClass.ts`. -/
def maxOutputTokensHint : TokenClass → Nat
  | .C256 => 256
  | .C512 => 512
  | .C1024 => 1024
  | .C2048 => 2048
  | .C4096 => 4096

theorem parseTokenClass_className : ∀ c : TokenClass, parseTokenClass (className c) = .ok c := by
  intro c
  cases c <;> decide

/-! ## Padding codec (`src/padding.ts`) -/

/-- The 4-byte magic tag `"ZKLG"`. -/
def magicBytes : List Nat := [90, 75, 76, 71]

/-- Little-endian 4-byte encoding, the effect of `Buffer.writeUInt32LE` for an
in-range value. -/
def u32le (n : Nat) : List Nat :=
  [n % 256, n / 256 % 256, n / 65536 % 256, n / 16777216 % 256]

/-- Little-endian 4-byte read, `Buffer.readUInt32LE` at offset 4 of the padded
frame. -/
def readU32LE (b0 b1 b2 b3 : Nat) : Nat :=
  b0 % 256 + 256 * (b1 % 256) + 65536 * (b2 % 256) + 16777216 * (b3 % 256)

/-- The filler written after the payload: the repeating two-byte pattern
`' '` (32), `'\n'` (10), indexed from 0 (`filler[j % filler.length]`). -/
def fillerBytes (k : Nat) : List Nat :=
  (List.range k).map fun j => if j % 2 = 0 then 32 else 10

/-- The bytes `padPayload` assembles when its checks pass: magic, LE length,
payload, filler up to the target length. -/
def padBytes (payload : List Nat) (targetLen : Nat) : List Nat :=
  magicBytes ++ u32le payload.length ++ payload ++ fillerBytes (targetLen - 8 - payload.length)

/-- `padPayload` from `src/padding.ts`.  The final check models
`Buffer.writeUInt32LE`, which raises `ERR_OUT_OF_RANGE` for a length above
`0xffffffff` (the 4-byte length field cannot represent it). -/
def padPayload (payload : List Nat) (targetLen : Nat) : Except SdkError (List Nat) :=
  if targetLen < 8 then .error (.invalidPadding "target length too small")
  else if payload.length > targetLen - 8 then .error (.payloadTooLarge payload.length (targetLen - 8))
  else if payload.length > 4294967295 then .error (.rangeErr "value out of uint32 range")
  else .ok (padBytes payload targetLen)

/-- `unpadPayload` from `src/padding.ts`. -/
def unpadPayload (padded : List Nat) : Except SdkError (List Nat) :=
  if padded.length < 8 then .error (.invalidPadding "padded payload too small")
  else if padded.take 4 ≠ magicBytes then .error (.invalidPadding "bad magic")
  else
    let length := readU32LE (padded.getD 4 0) (padded.getD 5 0) (padded.getD 6 0) (padded.getD 7 0)
    if length > padded.length - 8 then .error (.invalidPadding "invalid length")
    else .ok ((padded.drop 8).take length)

theorem length_fillerBytes (k : Nat) : (fillerBytes k).length = k := by
  simp [fillerBytes]

theorem length_padBytes (payload : List Nat) (targetLen : Nat)
    (h8 : 8 ≤ targetLen) (hle : payload.length ≤ targetLen - 8) :
    (padBytes payload targetLen).length = targetLen := by
  simp [padBytes, magicBytes, u32le, length_fillerBytes]
  omega

theorem u32le_readU32LE (n : Nat) (h : n < 4294967296) :
    readU32LE (n % 256) (n / 256 % 256) (n / 65536 % 256) (n / 16777216 % 256) = n := by
  simp only [readU32LE]
  omega

theorem padPayload_eq_ok (payload : List Nat) (targetLen : Nat)
    (h8 : 8 ≤ targetLen) (hle : payload.length ≤ targetLen - 8)
    (h32 : payload.length < 4294967296) :
    padPayload payload targetLen = .ok (padBytes payload targetLen) := by
  simp only [padPayload]
  rw [if_neg (by omega), if_neg (by omega), if_neg (by omega)]

theorem unpad_padBytes (payload : List Nat) (targetLen : Nat)
    (h8 : 8 ≤ targetLen) (hle : payload.length ≤ targetLen - 8)
    (h32 : payload.length < 4294967296) :
    unpadPayload (padBytes payload targetLen) = .ok payload := by
  have hlen : (padBytes payload targetLen).length = targetLen :=
    length_padBytes payload targetLen h8 hle
  have hhead : padBytes payload targetLen =
      90 :: 75 :: 76 :: 71 :: (payload.length % 256) :: (payload.length / 256 % 256) ::
        (payload.length / 65536 % 256) :: (payload.length / 16777216 % 256) ::
        (payload ++ fillerBytes (targetLen - 8 - payload.length)) := by
    simp [padBytes, magicBytes, u32le]
  simp only [unpadPayload, hlen]
  rw [if_neg (by omega)]
  rw [hhead]
  simp only [List.take_succ_cons, List.take_zero, List.getD, List.get?_eq_getElem?,
    List.getElem?_cons_succ, List.getElem?_cons_zero, List.drop_succ_cons, List.drop_zero]
  rw [if_neg (by simp [magicBytes])]
  simp only [Option.getD_some]
  rw [u32le_readU32LE payload.length h32]
  rw [if_neg (by omega)]
  rw [List.take_append_of_le_length (le_refl _), List.take_length]

/-- Roundtrip for the padding codec under the u32 length bound: shared by the
padding-law claim and the envelope roundtrips. -/
theorem pad_unpad (payload : List Nat) (targetLen : Nat)
    (h8 : 8 ≤ targetLen) (hle : payload.length ≤ targetLen - 8)
    (h32 : payload.length < 4294967296) :
    ∃ out, padPayload payload targetLen = .ok out ∧ out.length = targetLen ∧
      unpadPayload out = .ok payload :=
  ⟨padBytes payload targetLen, padPayload_eq_ok payload targetLen h8 hle h32,
    length_padBytes payload targetLen h8 hle, unpad_padBytes payload targetLen h8 hle h32⟩

/-! ## Envelope cryptography (`src/crypto.ts`)

`node:crypto` primitives are abstracted: `hmac` stands for HMAC-SHA-256
(`hmac key message`), `x25519` for the Diffie-Hellman function
(`x25519 privateKey publicKey`), and ChaCha20-Poly1305 is the symbolic AEAD
model `AeadCiphertext`.  The ephemeral keypair and the nonce that `sealJson`
draws from the CSPRNG are explicit arguments. -/

/-- Byte list of an ASCII string (`Buffer.from(s, "ascii")`). -/
def strBytes (s : String) : List Nat := s.data.map Char.toNat

/-- `enum KeyDirection` from `src/crypto.ts`. -/
inductive KeyDirection where
  | Request
  | Response
deriving Repr, DecidableEq

/-- Numeric value of a `KeyDirection` (Request = 1, Response = 2). -/
def KeyDirection.val : KeyDirection → Nat
  | .Request => 1
  | .Response => 2

/-- `makeAad` from `src/crypto.ts`: the 3-byte AAD
`[v & 0xff, tokenClassId & 0xff, direction & 0xff]`. -/
def makeAad (v : Nat) (tokenClass : TokenClass) (direction : KeyDirection) : List Nat :=
  [v % 256, tokenClassId tokenClass % 256, direction.val % 256]

/-- `hkdfInfo` from `src/crypto.ts`: the ASCII prefix, the direction suffix and
the single size-class id byte. -/
def hkdfInfo (tokenClass : TokenClass) (direction : KeyDirection) : List Nat :=
  strBytes "zk-llm-gateway-envelope-v1" ++
    (match direction with
      | .Request => strBytes "/req"
      | .Response => strBytes "/resp") ++
    [tokenClassId tokenClass % 256]

/-- The HKDF-Expand `while` loop of `hkdfSha256` in `src/crypto.ts`, with an
explicit fuel argument bounding the iteration count (each SHA-256 block adds 32
bytes, so `len` iterations always suffice; the loop state is the accumulated
blocks, the previous block and the counter). -/
def hkdfLoop (hmac : List Nat → List Nat → List Nat) (prk info : List Nat) (len : Nat) :
    Nat → List Nat → List Nat → Nat → List Nat
  | 0, acc, _, _ => acc
  | fuel + 1, acc, prev, counter =>
    if acc.length < len then
      let block := hmac prk (prev ++ info ++ [counter % 256])
      hkdfLoop hmac prk info len fuel (acc ++ block) block (counter + 1)
    else acc

/-- `hkdfSha256` from `src/crypto.ts`: HKDF-Extract (`prk = hmac salt ikm`)
followed by HKDF-Expand, truncated to `len` bytes. -/
def hkdfSha256 (hmac : List Nat → List Nat → List Nat) (ikm salt info : List Nat)
    (len : Nat) : List Nat :=
  (hkdfLoop hmac (hmac salt ikm) info len len [] [] 1).take len

/-- `deriveKey` from `src/crypto.ts`: 32-byte HKDF-SHA-256 output with a
32-zero-byte salt, the shared secret as IKM and `hkdfInfo` as info. -/
def deriveKey (hmac : List Nat → List Nat → List Nat) (sharedSecret : List Nat)
    (tokenClass : TokenClass) (direction : KeyDirection) : List Nat :=
  hkdfSha256 hmac sharedSecret (List.replicate 32 0) (hkdfInfo tokenClass direction) 32

/-- Symbolic ChaCha20-Poly1305 ciphertext: the ciphertext-plus-tag buffer is
modelled by the data that determines it.  Decryption recovers the plaintext
exactly when key, nonce and AAD coincide — the functional contract of the
AEAD (a mismatch makes the Poly1305 tag check fail). -/
structure AeadCiphertext where
  key : List Nat
  nonce : List Nat
  aad : List Nat
  plaintext : List Nat
deriving Repr, DecidableEq

/-- `chacha20poly1305Encrypt` from `src/crypto.ts` (symbolic). -/
def chacha20poly1305Encrypt (key nonce plaintext aad : List Nat) : AeadCiphertext :=
  { key := key, nonce := nonce, aad := aad, plaintext := plaintext }

/-- `chacha20poly1305Decrypt` from `src/crypto.ts` (symbolic): the
`CryptoError` message's library-supplied suffix is elided. -/
def chacha20poly1305Decrypt (key nonce : List Nat) (ct : AeadCiphertext)
    (aad : List Nat) : Except SdkError (List Nat) :=
  if ct.key = key ∧ ct.nonce = nonce ∧ ct.aad = aad then .ok ct.plaintext
  else .error (.cryptoError "decrypt failed")

/-- `interface Envelope` from `src/crypto.ts`.  The `_b64` string fields are
modelled by their decoded byte strings. -/
structure Envelope where
  v : Nat
  token_class : TokenClass
  eph_pubkey : List Nat
  nonce : List Nat
  ciphertext : AeadCiphertext
deriving Repr, DecidableEq

/-- `interface SealState` from `src/crypto.ts`. -/
structure SealState where
  tokenClass : TokenClass
  ephPubkey : List Nat
  reqKey : List Nat
  respKey : List Nat
deriving Repr, DecidableEq

/-- `normalizeEnvelope` from `src/crypto.ts`, on an already-typed envelope:
the alias handling (`version`/`kem_pub_b64`) and string coercions are
identities there; what remains is re-parsing the token class string. -/
def normalizeEnvelope (input : Envelope) : Except SdkError Envelope :=
  match parseTokenClass (className input.token_class) with
  | .ok tc => .ok { input with token_class := tc }
  | .error e => .error e

/-- `sealJson` from `src/crypto.ts`.  `stringify` abstracts
`JSON.stringify`; `ephPrivKey`/`ephPubRaw` are the generated ephemeral
keypair (the SPKI unwrap of the public key is the identity on the raw bytes)
and `nonce` the random 12-byte draw; `gatewayPk` is the gateway's raw public
key. -/
def sealJson {α : Type} (hmac x25519 : List Nat → List Nat → List Nat)
    (stringify : α → List Nat) (ephPrivKey ephPubRaw nonce gatewayPk : List Nat)
    (tokenClass : TokenClass) (payload : α) : Except SdkError (Envelope × SealState) :=
  let v : Nat := 1
  let raw := stringify payload
  match padPayload raw (requestPaddedLen tokenClass) with
  | .error e => .error e
  | .ok padded =>
    let shared := x25519 ephPrivKey gatewayPk
    if shared.length ≠ 32 then .error (.cryptoError "unexpected x25519 shared secret length")
    else
      let reqKey := deriveKey hmac shared tokenClass .Request
      let respKey := deriveKey hmac shared tokenClass .Response
      let aad := makeAad v tokenClass .Request
      let ct := chacha20poly1305Encrypt reqKey nonce padded aad
      .ok ({ v := v, token_class := tokenClass, eph_pubkey := ephPubRaw,
             nonce := nonce, ciphertext := ct },
           { tokenClass := tokenClass, ephPubkey := ephPubRaw,
             reqKey := reqKey, respKey := respKey })

/-- `openJson` from `src/crypto.ts`.  `parse` abstracts `JSON.parse`. -/
def openJson {α : Type} (parse : List Nat → Option α) (input : Envelope)
    (state : SealState) : Except SdkError α :=
  match normalizeEnvelope input with
  | .error e => .error e
  | .ok envelope =>
    if envelope.v ≠ 1 then .error (.cryptoError "unsupported envelope version")
    else if envelope.token_class ≠ state.tokenClass then .error (.cryptoError "token_class mismatch")
    else if ¬ (envelope.eph_pubkey.length = 32 ∧ envelope.nonce.length = 12) then
      .error (.cryptoError "invalid envelope fields")
    else if state.ephPubkey ≠ envelope.eph_pubkey then
      .error (.cryptoError "unexpected eph_pubkey in response")
    else
      let aad := makeAad envelope.v envelope.token_class .Response
      match chacha20poly1305Decrypt state.respKey envelope.nonce envelope.ciphertext aad with
      | .error e => .error e
      | .ok padded =>
        match unpadPayload padded with
        | .error e => .error e
        | .ok raw =>
          match parse raw with
          | some value => .ok value
          | none => .error (.protocolError "invalid decrypted JSON")

theorem normalizeEnvelope_eq_ok (input : Envelope) : normalizeEnvelope input = .ok input := by
  simp [normalizeEnvelope, parseTokenClass_className]

theorem requestPaddedLen_ge_8 (tc : TokenClass) : 8 ≤ requestPaddedLen tc := by
  cases tc <;> simp [requestPaddedLen]

theorem requestPaddedLen_lt_u32 (tc : TokenClass) : requestPaddedLen tc < 4294967296 := by
  cases tc <;> simp [requestPaddedLen]

theorem responsePaddedLen_ge_8 (tc : TokenClass) : 8 ≤ responsePaddedLen tc := by
  cases tc <;> simp [responsePaddedLen]

theorem responsePaddedLen_lt_u32 (tc : TokenClass) : responsePaddedLen tc < 4294967296 := by
  cases tc <;> simp [responsePaddedLen]

theorem sealJson_eq_ok {α : Type} (hmac x25519 : List Nat → List Nat → List Nat)
    (stringify : α → List Nat) (ephPrivKey ephPubRaw nonce gatewayPk : List Nat)
    (tokenClass : TokenClass) (payload : α)
    (hlen : (stringify payload).length ≤ requestPaddedLen tokenClass - 8)
    (hshared : (x25519 ephPrivKey gatewayPk).length = 32) :
    sealJson hmac x25519 stringify ephPrivKey ephPubRaw nonce gatewayPk tokenClass payload =
      .ok ({ v := 1, token_class := tokenClass, eph_pubkey := ephPubRaw, nonce := nonce,
             ciphertext := chacha20poly1305Encrypt
               (deriveKey hmac (x25519 ephPrivKey gatewayPk) tokenClass .Request) nonce
               (padBytes (stringify payload) (requestPaddedLen tokenClass))
               (makeAad 1 tokenClass .Request) },
           { tokenClass := tokenClass, ephPubkey := ephPubRaw,
             reqKey := deriveKey hmac (x25519 ephPrivKey gatewayPk) tokenClass .Request,
             respKey := deriveKey hmac (x25519 ephPrivKey gatewayPk) tokenClass .Response }) := by
  have h8 := requestPaddedLen_ge_8 tokenClass
  have hu := requestPaddedLen_lt_u32 tokenClass
  simp only [sealJson]
  rw [padPayload_eq_ok _ _ h8 hlen (by omega)]
  simp [hshared]

theorem sealJson_inv {α : Type} (hmac x25519 : List Nat → List Nat → List Nat)
    (stringify : α → List Nat) (ephPrivKey ephPubRaw nonce gatewayPk : List Nat)
    (tokenClass : TokenClass) (payload : α) (env : Envelope) (st : SealState)
    (h : sealJson hmac x25519 stringify ephPrivKey ephPubRaw nonce gatewayPk tokenClass payload =
      .ok (env, st)) :
    ∃ padded, padPayload (stringify payload) (requestPaddedLen tokenClass) = .ok padded ∧
      (x25519 ephPrivKey gatewayPk).length = 32 ∧
      env = { v := 1, token_class := tokenClass, eph_pubkey := ephPubRaw, nonce := nonce,
              ciphertext := chacha20poly1305Encrypt
                (deriveKey hmac (x25519 ephPrivKey gatewayPk) tokenClass .Request) nonce padded
                (makeAad 1 tokenClass .Request) } ∧
      st = { tokenClass := tokenClass, ephPubkey := ephPubRaw,
             reqKey := deriveKey hmac (x25519 ephPrivKey gatewayPk) tokenClass .Request,
             respKey := deriveKey hmac (x25519 ephPrivKey gatewayPk) tokenClass .Response } := by
  simp only [sealJson] at h
  cases hp : padPayload (stringify payload) (requestPaddedLen tokenClass) with
  | error e => rw [hp] at h; exact absurd h (by simp)
  | ok padded =>
    rw [hp] at h
    by_cases hs : (x25519 ephPrivKey gatewayPk).length = 32
    · simp only [hs, ne_eq, not_true_eq_false, if_false, ite_false] at h
      refine ⟨padded, rfl, hs, ?_, ?_⟩
      · have := (Prod.mk.injEq _ _ _ _).mp (Except.ok.inj h)
        exact this.1.symm
      · have := (Prod.mk.injEq _ _ _ _).mp (Except.ok.inj h)
        exact this.2.symm
    · simp [hs] at h

theorem chacha20poly1305Decrypt_inv (key nonce : List Nat) (ct : AeadCiphertext)
    (aad pt : List Nat) (h : chacha20poly1305Decrypt key nonce ct aad = .ok pt) :
    ct.key = key ∧ ct.nonce = nonce ∧ ct.aad = aad ∧ pt = ct.plaintext := by
  unfold chacha20poly1305Decrypt at h
  split_ifs at h with hc
  exact ⟨hc.1, hc.2.1, hc.2.2, (Except.ok.inj h).symm⟩

theorem hkdfLoop_length_ge (hmac : List Nat → List Nat → List Nat) (prk info : List Nat)
    (len : Nat) (hblock : ∀ m, (hmac prk m).length = 32) :
    ∀ fuel acc prev ctr, len ≤ acc.length + 32 * fuel →
      len ≤ (hkdfLoop hmac prk info len fuel acc prev ctr).length := by
  intro fuel
  induction fuel with
  | zero => intro acc prev ctr hbound; simp only [hkdfLoop]; omega
  | succ n ih =>
    intro acc prev ctr hbound
    rw [hkdfLoop]
    by_cases hlt : acc.length < len
    · rw [if_pos hlt]
      apply ih
      rw [List.length_append, hblock]
      omega
    · rw [if_neg hlt]
      omega

theorem hkdfSha256_length (hmac : List Nat → List Nat → List Nat) (ikm salt info : List Nat)
    (len : Nat) (hblock : ∀ k m, (hmac k m).length = 32) :
    (hkdfSha256 hmac ikm salt info len).length = len := by
  unfold hkdfSha256
  rw [List.length_take]
  have := hkdfLoop_length_ge hmac (hmac salt ikm) info len (fun m => hblock _ m)
    len [] [] 1 (by simp; omega)
  omega

theorem deriveKey_length (hmac : List Nat → List Nat → List Nat) (sharedSecret : List Nat)
    (tokenClass : TokenClass) (direction : KeyDirection)
    (hblock : ∀ k m, (hmac k m).length = 32) :
    (deriveKey hmac sharedSecret tokenClass direction).length = 32 :=
  hkdfSha256_length hmac sharedSecret (List.replicate 32 0) (hkdfInfo tokenClass direction)
    32 hblock

theorem openJson_eq_ok {α : Type} (parse : List Nat → Option α) (e : Envelope) (s : SealState)
    (p : α) (raw : List Nat)
    (hv : e.v = 1) (htc : e.token_class = s.tokenClass)
    (heq : s.ephPubkey = e.eph_pubkey) (hel : e.eph_pubkey.length = 32)
    (hnl : e.nonce.length = 12)
    (hkey : e.ciphertext.key = s.respKey) (hnonce : e.ciphertext.nonce = e.nonce)
    (haad : e.ciphertext.aad = makeAad 1 e.token_class .Response)
    (hunpad : unpadPayload e.ciphertext.plaintext = .ok raw)
    (hparse : parse raw = some p) :
    openJson parse e s = .ok p := by
  simp only [openJson, normalizeEnvelope_eq_ok]
  rw [if_neg (by omega), if_neg (by simp [htc]), if_neg (by simp [hel, hnl]),
    if_neg (by simp [heq])]
  simp only [chacha20poly1305Decrypt, hkey, hnonce, haad, hv]
  rw [if_pos (by simp)]
  simp only [hunpad, hparse]

theorem openJson_ok_inv {α : Type} (parse : List Nat → Option α) (e : Envelope)
    (s : SealState) (p : α) (h : openJson parse e s = .ok p) :
    e.v = 1 ∧ e.token_class = s.tokenClass ∧ s.ephPubkey = e.eph_pubkey ∧
      e.ciphertext.key = s.respKey ∧ e.ciphertext.nonce = e.nonce ∧
      e.ciphertext.aad = makeAad 1 e.token_class .Response := by
  simp only [openJson, normalizeEnvelope_eq_ok] at h
  by_cases hv : e.v = 1
  · rw [if_neg (by omega)] at h
    by_cases htc : e.token_class = s.tokenClass
    · rw [if_neg (by simp [htc])] at h
      by_cases hfields : e.eph_pubkey.length = 32 ∧ e.nonce.length = 12
      · rw [if_neg (by simp [hfields.1, hfields.2])] at h
        by_cases heph : s.ephPubkey = e.eph_pubkey
        · rw [if_neg (by simp [heph])] at h
          cases hd : chacha20poly1305Decrypt s.respKey e.nonce e.ciphertext
              (makeAad e.v e.token_class .Response) with
          | error err => rw [hd] at h; exact absurd h (by simp)
          | ok padded =>
            have hinv := chacha20poly1305Decrypt_inv _ _ _ _ _ hd
            exact ⟨hv, htc, heph, hinv.1, hinv.2.1, by rw [hinv.2.2.1, hv]⟩
        · rw [if_pos (by simp [heph])] at h; exact absurd h (by simp)
      · rw [if_pos (by tauto)] at h; exact absurd h (by simp)
    · rw [if_pos (by simp [htc])] at h; exact absurd h (by simp)
  · rw [if_pos (by omega)] at h; exact absurd h (by simp)

theorem openJson_v_ne {α : Type} (parse : List Nat → Option α) (e : Envelope) (s : SealState)
    (hv : e.v ≠ 1) :
    openJson parse e s = .error (.cryptoError "unsupported envelope version") := by
  simp only [openJson, normalizeEnvelope_eq_ok]
  rw [if_pos (by omega)]

theorem openJson_class_ne {α : Type} (parse : List Nat → Option α) (e : Envelope)
    (s : SealState) (hv : e.v = 1) (htc : e.token_class ≠ s.tokenClass) :
    openJson parse e s = .error (.cryptoError "token_class mismatch") := by
  simp only [openJson, normalizeEnvelope_eq_ok]
  rw [if_neg (by omega), if_pos (by simp [htc])]

theorem openJson_eph_ne {α : Type} (parse : List Nat → Option α) (e : Envelope)
    (s : SealState) (heph : e.eph_pubkey ≠ s.ephPubkey) :
    ∃ m, openJson parse e s = .error (.cryptoError m) := by
  simp only [openJson, normalizeEnvelope_eq_ok]
  by_cases hv : e.v = 1
  · rw [if_neg (by omega)]
    by_cases htc : e.token_class = s.tokenClass
    · rw [if_neg (by simp [htc])]
      by_cases hfields : e.eph_pubkey.length = 32 ∧ e.nonce.length = 12
      · rw [if_neg (by simp [hfields.1, hfields.2]),
          if_pos (by simp; intro hc; exact absurd hc.symm heph)]
        exact ⟨_, rfl⟩
      · rw [if_pos (by tauto)]; exact ⟨_, rfl⟩
    · rw [if_pos (by simp [htc])]; exact ⟨_, rfl⟩
  · rw [if_pos (by omega)]; exact ⟨_, rfl⟩

/-! ## JSON values

Ticket-pool entries and decrypted reply payloads are arbitrary parsed-JSON
values; `JsValue` models them.  Objects are association lists; `JSON.parse`
never produces duplicate keys (later duplicates overwrite), so first-match
lookup agrees with JavaScript property access. -/

inductive JsValue where
  | str (s : String)
  | num (n : Int)
  | bool (b : Bool)
  | null
  | arr (elems : List JsValue)
  | obj (fields : List (String × JsValue))
deriving Repr

/-- JavaScript property read on an object's field list. -/
def lookupField : List (String × JsValue) → String → Option JsValue
  | [], _ => none
  | (k, v) :: rest, key => if k = key then some v else lookupField rest key

/-- JavaScript property read `value[key]`; `none` models `undefined`. -/
def jsField : JsValue → String → Option JsValue
  | .obj fields, key => lookupField fields key
  | _, _ => none

/-- JavaScript truthiness of a JSON value (`NaN` and `-0` do not arise from
parsed JSON integers). -/
def jsTruthy : JsValue → Bool
  | .str s => if s = "" then false else true
  | .num n => if n = 0 then false else true
  | .bool b => b
  | .null => false
  | .arr _ => true
  | .obj _ => true

/-- The `isObject` helper of `src/client.ts` (objects but not arrays or
`null`). -/
def isObject : JsValue → Bool
  | .obj _ => true
  | _ => false

mutual

/-- JavaScript `String(value)` on parsed-JSON values.  (Deviation from the
full JS spec: `null` elements inside an array stringify to `"null"` here but
to the empty string in JS; no claim exercises that corner.) -/
def jsToString : JsValue → String
  | .str s => s
  | .num n => toString n
  | .bool b => if b then "true" else "false"
  | .null => "null"
  | .arr xs => String.intercalate "," (jsToStringArr xs)
  | .obj _ => "[object Object]"

/-- `String(...)` mapped over array elements (`Array.prototype.join(',')`). -/
def jsToStringArr : List JsValue → List String
  | [] => []
  | x :: xs => jsToString x :: jsToStringArr xs

end

/-! ## Ticket source (`src/tickets.ts`) -/

/-- Message text of an `SdkError`, as read by a `catch` block
(`(e as Error).message`). -/
def SdkError.message : SdkError → String
  | .invalidTokenClass m => m
  | .invalidGatewayPublicKey m => m
  | .base64Error m => m
  | .cryptoError m => m
  | .protocolError m => m
  | .invalidPadding m => m
  | .payloadTooLarge a l => String.append (String.append (String.append "payload too large: " (toString a)) " > ") (toString l)
  | .ticketExhausted m => m
  | .httpError _ m => m
  | .gatewayErrorJs _ m => m
  | .rangeErr m => m

/-- `b64Zeros(32)`: base64 of 32 zero bytes. -/
def b64Zeros32 : String := "AAAAAAAAAAAAAAAAAAAAAAAAAAAAAAAAAAAAAAAAAAA="

/-- Canonical gateway ticket payload (`interface ZkTicket`). -/
structure ZkTicket where
  commitment_root : String
  nullifier : String
  token_class : TokenClass
  proof : String
deriving Repr, DecidableEq

/-- The `typeof raw.k1 === "string" ? raw.k1 : typeof raw.k2 === "string" ?
raw.k2 : dflt` cascades of `normalizeTicket`. -/
def strFieldOr (raw : JsValue) (k1 k2 : String) (dflt : String) : String :=
  match jsField raw k1 with
  | some (.str s) => s
  | _ =>
    match jsField raw k2 with
    | some (.str s) => s
    | _ => dflt

/-- `normalizeTicket` from `src/tickets.ts`.  The `Except String` error is the
thrown error's message, which `nextTicket`'s catch block wraps. -/
def normalizeTicket (raw : JsValue) (fallbackTokenClass : TokenClass) :
    Except String ZkTicket :=
  let commitment_root := strFieldOr raw "commitment_root" "commitment_root_b64" b64Zeros32
  let nullifier := strFieldOr raw "nullifier" "nullifier_b64" ""
  if nullifier = "" then .error "ticket missing nullifier/nullifier_b64"
  else
    let proof := strFieldOr raw "proof" "proof_b64" ""
    match jsField raw "token_class" with
    | some v =>
      if jsTruthy v then
        match parseTokenClass (jsToString v) with
        | .ok tc => .ok ⟨commitment_root, nullifier, tc, proof⟩
        | .error e => .error e.message
      else .ok ⟨commitment_root, nullifier, fallbackTokenClass, proof⟩
    | none => .ok ⟨commitment_root, nullifier, fallbackTokenClass, proof⟩

/-- The `findIndex` predicate for an exact class match in `nextTicket`
(`!t.token_class` short-circuits to false; a parse failure is caught and
treated as false). -/
def classMatches (tokenClass : TokenClass) (t : JsValue) : Bool :=
  match jsField t "token_class" with
  | none => false
  | some v =>
    if jsTruthy v then
      match parseTokenClass (jsToString v) with
      | .ok c => decide (c = tokenClass)
      | .error _ => false
    else false

/-- The `findIndex` predicate for a wildcard entry (`!t.token_class`). -/
def untypedEntry (t : JsValue) : Bool :=
  match jsField t "token_class" with
  | none => true
  | some v => ! jsTruthy v

/-- `Array.prototype.findIndex`, with `-1` modelled as `none`. -/
def findIndex {α : Type} (p : α → Bool) : List α → Option Nat
  | [] => none
  | t :: ts => if p t then some 0 else (findIndex p ts).map (· + 1)

/-- The index `nextTicket` selects: the exact match if present, otherwise the
wildcard (`exactIndex >= 0 ? exactIndex : fallbackIndex`). -/
def selectIdx (tokenClass : TokenClass) (tickets : List JsValue) : Option Nat :=
  (findIndex (classMatches tokenClass) tickets).orElse
    (fun _ => findIndex untypedEntry tickets)

/-- `FileTicketSource.nextTicket` from `src/tickets.ts`, with the mutable
`this.tickets` pool passed and returned explicitly (`splice` removes the
selected entry before normalization). -/
def nextTicket (tokenClass : TokenClass) (tickets : List JsValue) :
    Except SdkError ZkTicket × List JsValue :=
  match selectIdx tokenClass tickets with
  | none => (.error (.ticketExhausted "ticket pool exhausted"), tickets)
  | some idx =>
    match tickets.get? idx with
    | none =>
      -- unreachable: `findIndex` only returns in-range indices
      (.error (.ticketExhausted "ticket pool exhausted"), tickets)
    | some raw =>
      let remaining := tickets.eraseIdx idx
      match normalizeTicket raw tokenClass with
      | .error m =>
        (.error (.ticketExhausted (String.append "invalid ticket entry: " m)), remaining)
      | .ok ticket =>
        if ticket.token_class ≠ tokenClass then
          (.error (.ticketExhausted "invalid ticket entry: ticket token_class mismatch"), remaining)
        else (.ok ticket, remaining)

theorem findIndex_some_lt {α : Type} (p : α → Bool) :
    ∀ (l : List α) (i : Nat), findIndex p l = some i → i < l.length := by
  intro l
  induction l with
  | nil => intro i h; simp [findIndex] at h
  | cons a rest ih =>
    intro i h
    simp only [findIndex] at h
    split_ifs at h with ha
    · cases h; simp
    · cases hr : findIndex p rest with
      | none => rw [hr] at h; simp at h
      | some j =>
        rw [hr] at h
        simp only [Option.map_some'] at h
        cases h
        have := ih j hr
        simp
        omega

theorem findIndex_some_get {α : Type} (p : α → Bool) :
    ∀ (l : List α) (i : Nat), findIndex p l = some i →
      ∃ a, l.get? i = some a ∧ p a = true := by
  intro l
  induction l with
  | nil => intro i h; simp [findIndex] at h
  | cons a rest ih =>
    intro i h
    simp only [findIndex] at h
    split_ifs at h with ha
    · cases h; exact ⟨a, rfl, ha⟩
    · cases hr : findIndex p rest with
      | none => rw [hr] at h; simp at h
      | some j =>
        rw [hr] at h
        simp only [Option.map_some'] at h
        cases h
        obtain ⟨b, hb, hpb⟩ := ih j hr
        exact ⟨b, by simpa using hb, hpb⟩

theorem findIndex_some_first {α : Type} (p : α → Bool) :
    ∀ (l : List α) (i : Nat), findIndex p l = some i →
      ∀ (j : Nat) (b : α), j < i → l.get? j = some b → p b = false := by
  intro l
  induction l with
  | nil => intro i h; simp [findIndex] at h
  | cons a rest ih =>
    intro i h j b hj hb
    simp only [findIndex] at h
    split_ifs at h with ha
    · cases h; omega
    · cases hr : findIndex p rest with
      | none => rw [hr] at h; simp at h
      | some k =>
        rw [hr] at h
        simp only [Option.map_some'] at h
        cases h
        cases j with
        | zero =>
          simp only [List.get?_cons_zero] at hb
          cases hb
          simpa using ha
        | succ j' =>
          simp only [List.get?_cons_succ] at hb
          exact ih k hr j' b (by omega) hb

theorem normalizeTicket_stamped (tokenClass : TokenClass) (raw : JsValue) (t : ZkTicket)
    (hsel : classMatches tokenClass raw = true ∨ untypedEntry raw = true)
    (hn : normalizeTicket raw tokenClass = .ok t) :
    t.token_class = tokenClass := by
  simp only [normalizeTicket] at hn
  split_ifs at hn with hnul
  cases hf : jsField raw "token_class" with
  | none =>
    rw [hf] at hn
    cases hn
    rfl
  | some v =>
    rw [hf] at hn
    dsimp only at hn
    by_cases ht : jsTruthy v = true
    · rw [if_pos ht] at hn
      cases hp : parseTokenClass (jsToString v) with
      | error e => rw [hp] at hn; exact absurd hn (by simp)
      | ok c =>
        rw [hp] at hn
        cases hn
        cases hsel with
        | inl hm =>
          simp only [classMatches, hf, ht, if_true, hp, decide_eq_true_eq] at hm
          exact hm
        | inr hu =>
          simp only [untypedEntry, hf, ht] at hu
          simp at hu
    · rw [if_neg ht] at hn
      cases hn
      rfl

/-! ## Request orchestrator (`src/client.ts`) -/

/-- `??` (nullish coalescing) on a property read: `undefined` (`none`) and
`null` fall through to the default. -/
def nullish (o : Option JsValue) (dflt : JsValue) : JsValue :=
  match o with
  | none => dflt
  | some .null => dflt
  | some v => v

/-- The chat-request shape test of `parseChatRequest`:
`isObject(input) && typeof input.model === "string" && Array.isArray(input.messages)`. -/
def isChatShape (input : JsValue) : Bool :=
  isObject input &&
    (match jsField input "model" with
      | some (.str _) => true
      | _ => false) &&
    (match jsField input "messages" with
      | some (.arr _) => true
      | _ => false)

/-- The transport-envelope branch of `parseChatRequest`: when
`isObject(input) && input.path === "/v1/chat/completions" && isObject(input.body)`,
the body to recurse on. -/
def chatBody (input : JsValue) : Option JsValue :=
  if isObject input &&
      (match jsField input "path" with
        | some (.str s) => s == "/v1/chat/completions"
        | _ => false) then
    match jsField input "body" with
    | some b => if isObject b then some b else none
    | none => none
  else none

theorem sizeOf_lookupField :
    ∀ (fields : List (String × JsValue)) (key : String) (v : JsValue),
      lookupField fields key = some v → sizeOf v < sizeOf fields := by
  intro fields
  induction fields with
  | nil => intro key v h; simp [lookupField] at h
  | cons kv rest ih =>
    intro key v h
    obtain ⟨k', v'⟩ := kv
    simp only [lookupField] at h
    split_ifs at h with hk
    · cases h
      simp only [List.cons.sizeOf_spec, Prod.mk.sizeOf_spec]
      omega
    · have := ih key v h
      simp only [List.cons.sizeOf_spec]
      omega

theorem sizeOf_jsField (input : JsValue) (key : String) (v : JsValue)
    (h : jsField input key = some v) : sizeOf v < sizeOf input := by
  cases input <;> simp [jsField] at h
  case obj fields =>
    have := sizeOf_lookupField fields key v h
    simp only [JsValue.obj.sizeOf_spec]
    omega

theorem sizeOf_chatBody (input b : JsValue) (h : chatBody input = some b) :
    sizeOf b < sizeOf input := by
  unfold chatBody at h
  split_ifs at h with hc
  cases hf : jsField input "body" with
  | none => rw [hf] at h; exact absurd h (by simp)
  | some bb =>
    rw [hf] at h
    dsimp only at h
    split_ifs at h with ho
    cases h
    exact sizeOf_jsField input "body" b hf

/-- `parseChatRequest` from `src/client.ts`: accept a chat-shaped object
directly, or recurse into a `path`/`body` transport envelope; otherwise
`ProtocolError`.  (The thrown message's object-literal example is elided.) -/
def parseChatRequest (input : JsValue) : Except SdkError JsValue :=
  if isChatShape input then .ok input
  else
    match hb : chatBody input with
    | some b => parseChatRequest b
    | none => .error (.protocolError "unsupported inferJson payload")
termination_by sizeOf input
decreasing_by exact sizeOf_chatBody input b hb

/-- `interface InferenceRequest` from `src/client.ts`.  Property reads that
may be `undefined` are `Option JsValue`; an absent (`none`) field is omitted
by `JSON.stringify`. -/
structure InferenceRequest where
  request_id : String
  model : Option JsValue
  messages : Option JsValue
  max_tokens : Option JsValue
  temperature : Option JsValue
  token_class : TokenClass
  ticket : ZkTicket
deriving Repr

/-- `buildInferenceRequest` from `src/client.ts`; `rid` is the
`crypto.randomUUID()` draw, passed explicitly. -/
def buildInferenceRequest (rid : String) (tokenClass : TokenClass) (ticket : ZkTicket)
    (req : JsValue) : InferenceRequest :=
  { request_id := rid
    model := jsField req "model"
    messages := jsField req "messages"
    max_tokens := jsField req "max_tokens"
    temperature := jsField req "temperature"
    token_class := tokenClass
    ticket := ticket }

/-- The plaintext-assembly prefix of `inferJsonWithTicket` (`src/client.ts`
lines 118-126): the ticket-class pre-check, upstream coercion, and the
`InferenceRequest` that is then handed to `sealJson`. -/
def inferPlaintext (tokenClass : TokenClass) (ticket : ZkTicket) (rid : String)
    (upstream : JsValue) : Except SdkError InferenceRequest :=
  if ticket.token_class ≠ tokenClass then
    .error (.protocolError "ticket token_class must match requested token_class")
  else
    match parseChatRequest upstream with
    | .error e => .error e
    | .ok chatReq => .ok (buildInferenceRequest rid tokenClass ticket chatReq)

/-- JavaScript property assignment `req.max_tokens = value`: replace an
existing key in place, else append. -/
def setField (fields : List (String × JsValue)) (key : String) (v : JsValue) :
    List (String × JsValue) :=
  match fields with
  | [] => [(key, v)]
  | (k, w) :: rest => if k = key then (key, v) :: rest else (k, w) :: setField rest key v

/-- The `max_tokens` defaulting of `chatCompletions` (`src/client.ts` lines
200-202): mutate the request when `max_tokens` is `undefined` or `null`, then
hand it to `inferJson`. -/
def applyMaxTokensDefault (tokenClass : TokenClass) (req : JsValue) : JsValue :=
  match req with
  | .obj fields =>
    match lookupField fields "max_tokens" with
    | none => .obj (setField fields "max_tokens" (.num (maxOutputTokensHint tokenClass)))
    | some .null => .obj (setField fields "max_tokens" (.num (maxOutputTokensHint tokenClass)))
    | some _ => .obj fields
  | other => other

/-- The tagged payload union (`type GatewayEnvelopePayload`). -/
inductive GatewayPayload where
  | ok (response : List (String × JsValue))
  | err (error : List (String × JsValue))
deriving Repr

/-- `parseGatewayPayload` from `src/client.ts`. -/
def parseGatewayPayload (decrypted : JsValue) : Option GatewayPayload :=
  match decrypted with
  | .obj fields =>
    match lookupField fields "kind" with
    | some (.str "ok") =>
      match lookupField fields "response" with
      | some (.obj r) => some (.ok r)
      | _ => none
    | some (.str "err") =>
      match lookupField fields "error" with
      | some (.obj e) => some (.err e)
      | _ => none
    | _ => none
  | _ => none

/-- The legacy fallback test of `inferJsonWithTicket`:
`isObject(decrypted) && isObject(decrypted.error)`, with the
`String(code ?? "gateway_error")` / `String(message ?? "unknown error")`
coercions. -/
def legacyError (decrypted : JsValue) : Option (String × String) :=
  match decrypted with
  | .obj fields =>
    match lookupField fields "error" with
    | some (.obj e) =>
      some (jsToString (nullish (lookupField e "code") (.str "gateway_error")),
            jsToString (nullish (lookupField e "message") (.str "unknown error")))
    | _ => none
  | _ => none

/-- The `"upstream" in decrypted` key-presence read of `inferJsonWithTicket`. -/
def upstreamField (decrypted : JsValue) : Option JsValue :=
  match decrypted with
  | .obj fields => lookupField fields "upstream"
  | _ => none

/-- The reply-interpretation tail of `inferJsonWithTicket` (`src/client.ts`
lines 173-196), as a function of the HTTP status and the decrypted JSON value.
The tagged `err` branch passes `error.code ?? "gateway_error"` through without
string coercion; `gatewayErrorJs` records its `String(...)` rendering. -/
def interpretReply (status : Nat) (decrypted : JsValue) : Except SdkError JsValue :=
  match parseGatewayPayload decrypted with
  | some (.ok r) => .ok (.obj r)
  | some (.err e) =>
    .error (.gatewayErrorJs
      (jsToString (nullish (lookupField e "code") (.str "gateway_error")))
      (jsToString (nullish (lookupField e "message") (.str "unknown error"))))
  | none =>
    match legacyError decrypted with
    | some (code, msg) => .error (.gatewayErrorJs code msg)
    | none =>
      if status < 200 ∨ 300 ≤ status then
        .error (.httpError status (String.append "gateway returned HTTP " (toString status)))
      else
        match upstreamField decrypted with
        | some v => .ok v
        | none => .error (.protocolError "missing response payload in decrypted gateway response")

/-! ## Auxiliary lemmas shared by the claim theorems -/

theorem padPayload_ok_inv (payload : List Nat) (targetLen : Nat) (out : List Nat)
    (h : padPayload payload targetLen = .ok out) :
    out = padBytes payload targetLen ∧ 8 ≤ targetLen ∧
      payload.length ≤ targetLen - 8 ∧ payload.length < 4294967296 := by
  unfold padPayload at h
  split_ifs at h with h1 h2 h3
  exact ⟨(Except.ok.inj h).symm, by omega, by omega, by omega⟩

theorem unpadPayload_of_padPayload (payload : List Nat) (targetLen : Nat) (out : List Nat)
    (h : padPayload payload targetLen = .ok out) :
    unpadPayload out = .ok payload := by
  obtain ⟨rfl, h8, hle, h32⟩ := padPayload_ok_inv payload targetLen out h
  exact unpad_padBytes payload targetLen h8 hle h32

theorem makeAad_eval (c : TokenClass) (d : KeyDirection) :
    makeAad 1 c d = [1, tokenClassId c, d.val] := by
  cases c <;> cases d <;> rfl

/-- The numeric-suffix spelling each class's parser branch accepts. -/
def classSuffix : TokenClass → String
  | .C256 => "256"
  | .C512 => "512"
  | .C1024 => "1024"
  | .C2048 => "2048"
  | .C4096 => "4096"

/-! ## Claim C4 — padding roundtrip law -/

/-- C4 counterexample: the claim quantifies over all byte strings, but the
4-byte little-endian length field cannot represent a payload of `2^32` bytes:
at `p = 2^32` zero bytes and `t = 2^32 + 8`, both side conditions of the claim
hold, yet `padPayload` raises `ERR_OUT_OF_RANGE` (from `Buffer.writeUInt32LE`)
instead of succeeding. -/
theorem padding_roundtrip_counterexample :
    8 ≤ (4294967304 : Nat) ∧
    (List.replicate 4294967296 (0 : Nat)).length ≤ 4294967304 - 8 ∧
    padPayload (List.replicate 4294967296 (0 : Nat)) 4294967304 =
      .error (.rangeErr "value out of uint32 range") := by
  refine ⟨by omega, ?_, ?_⟩
  · rw [List.length_replicate]
  · unfold padPayload
    rw [List.length_replicate]
    rw [if_neg (by omega), if_neg (by omega), if_pos (by omega)]

/-- C4 (amended): for every byte string `p` with `len(p) < 2^32` and every
target `t` with `t ≥ 8` and `len(p) ≤ t - 8`, `padPayload(p, t)` succeeds and
returns exactly `t` bytes, and `unpadPayload(padPayload(p, t))` equals `p`. -/
theorem padding_roundtrip_law (p : List Nat) (t : Nat) (h8 : 8 ≤ t)
    (hle : p.length ≤ t - 8) (h32 : p.length < 4294967296) :
    ∃ out, padPayload p t = .ok out ∧ out.length = t ∧ unpadPayload out = .ok p :=
  pad_unpad p t h8 hle h32

theorem padding_roundtrip_law_witness :
    ∃ out, padPayload [1, 2, 3] 16 = .ok out ∧ out.length = 16 ∧
      unpadPayload out = .ok [1, 2, 3] :=
  padding_roundtrip_law [1, 2, 3] 16 (by decide) (by decide) (by decide)

/-! ## Claim C6 — size-class table -/

/-- C6: `parseTokenClass` accepts, case-insensitively and after trimming,
exactly the symbolic name or bare numeric suffix of each of the five classes
(ids 1..5), throws `InvalidTokenClass` on every other input, and the
request/response padded lengths per class are as tabulated. -/
theorem parseTokenClass_and_size_table :
    (∀ (s : String) (c : TokenClass),
      parseTokenClass s = .ok c ↔
        (asciiLower (jsTrim s) = className c ∨ asciiLower (jsTrim s) = classSuffix c))
    ∧ (∀ s : String,
        (∀ c : TokenClass,
          asciiLower (jsTrim s) ≠ className c ∧ asciiLower (jsTrim s) ≠ classSuffix c) →
        parseTokenClass s =
          .error (.invalidTokenClass (String.append "invalid token class: " s)))
    ∧ (tokenClassId .C256 = 1 ∧ tokenClassId .C512 = 2 ∧ tokenClassId .C1024 = 3 ∧
       tokenClassId .C2048 = 4 ∧ tokenClassId .C4096 = 5)
    ∧ (requestPaddedLen .C256 = 8192 ∧ requestPaddedLen .C512 = 12288 ∧
       requestPaddedLen .C1024 = 20480 ∧ requestPaddedLen .C2048 = 36864 ∧
       requestPaddedLen .C4096 = 69632)
    ∧ (responsePaddedLen .C256 = 8192 ∧ responsePaddedLen .C512 = 16384 ∧
       responsePaddedLen .C1024 = 32768 ∧ responsePaddedLen .C2048 = 65536 ∧
       responsePaddedLen .C4096 = 131072) := by
  refine ⟨?_, ?_, by decide, by decide, by decide⟩
  · intro s c
    simp only [parseTokenClass]
    generalize asciiLower (jsTrim s) = v
    split_ifs with h1 h2 h3 h4 h5
    · rcases h1 with h | h <;> subst h <;> cases c <;> decide
    · rcases h2 with h | h <;> subst h <;> cases c <;> decide
    · rcases h3 with h | h <;> subst h <;> cases c <;> decide
    · rcases h4 with h | h <;> subst h <;> cases c <;> decide
    · rcases h5 with h | h <;> subst h <;> cases c <;> decide
    · cases c with
      | C256 => exact iff_of_false (by simp) h1
      | C512 => exact iff_of_false (by simp) h2
      | C1024 => exact iff_of_false (by simp) h3
      | C2048 => exact iff_of_false (by simp) h4
      | C4096 => exact iff_of_false (by simp) h5
  · intro s h
    simp only [parseTokenClass]
    rw [if_neg (fun hor => hor.elim (h .C256).1 (h .C256).2),
      if_neg (fun hor => hor.elim (h .C512).1 (h .C512).2),
      if_neg (fun hor => hor.elim (h .C1024).1 (h .C1024).2),
      if_neg (fun hor => hor.elim (h .C2048).1 (h .C2048).2),
      if_neg (fun hor => hor.elim (h .C4096).1 (h .C4096).2)]

theorem parseTokenClass_and_size_table_witness :
    parseTokenClass " C2048 " = .ok .C2048 ∧
    parseTokenClass "1024" = .ok .C1024 ∧
    parseTokenClass "c8192" =
      .error (.invalidTokenClass (String.append "invalid token class: " "c8192")) :=
  ⟨(parseTokenClass_and_size_table.1 " C2048 " .C2048).mpr (by decide),
   (parseTokenClass_and_size_table.1 "1024" .C1024).mpr (by decide),
   parseTokenClass_and_size_table.2.1 "c8192" (fun c => by cases c <;> exact ⟨by decide, by decide⟩)⟩

/-! ## Claim C3 — key schedule and AAD byte-exactness -/

/-- C3: the HKDF-SHA-256 schedule uses salt = 32 zero bytes, IKM = the X25519
shared secret, and info = ASCII `zk-llm-gateway-envelope-v1` + `/req` or
`/resp` + the class-id byte, yielding two 32-byte keys both stored in the
seal state; the request ciphertext is authenticated under AAD
`[1, id, 1]` with the request key, and a successful open authenticated the
response ciphertext under AAD `[1, id, 2]` with the response key. -/
theorem key_schedule_and_aad_bytes :
    ∀ (hmac x25519 : List Nat → List Nat → List Nat),
      (∀ k m, (hmac k m).length = 32) →
      ((∀ c : TokenClass,
          hkdfInfo c .Request = strBytes "zk-llm-gateway-envelope-v1/req" ++ [tokenClassId c] ∧
          hkdfInfo c .Response = strBytes "zk-llm-gateway-envelope-v1/resp" ++ [tokenClassId c])
      ∧ (∀ (sharedSecret : List Nat) (c : TokenClass) (d : KeyDirection),
          deriveKey hmac sharedSecret c d =
            hkdfSha256 hmac sharedSecret (List.replicate 32 0) (hkdfInfo c d) 32 ∧
          (deriveKey hmac sharedSecret c d).length = 32)
      ∧ (∀ (α : Type) (stringify : α → List Nat) (ephPriv ephPub nonce gw : List Nat)
            (c : TokenClass) (payload : α) (env : Envelope) (st : SealState),
          sealJson hmac x25519 stringify ephPriv ephPub nonce gw c payload = .ok (env, st) →
            st.reqKey = deriveKey hmac (x25519 ephPriv gw) c .Request ∧
            st.respKey = deriveKey hmac (x25519 ephPriv gw) c .Response ∧
            env.ciphertext.key = st.reqKey ∧
            env.ciphertext.nonce = nonce ∧
            env.ciphertext.aad = [1, tokenClassId c, 1])
      ∧ (∀ (α : Type) (parse : List Nat → Option α) (e : Envelope) (s : SealState) (p : α),
          openJson parse e s = .ok p →
            e.ciphertext.key = s.respKey ∧
            e.ciphertext.aad = [1, tokenClassId e.token_class, 2])) := by
  intro hmac x25519 hblock
  refine ⟨?_, ?_, ?_, ?_⟩
  · intro c; cases c <;> exact ⟨by decide, by decide⟩
  · intro ss c d; exact ⟨rfl, deriveKey_length hmac ss c d hblock⟩
  · intro α stringify ephPriv ephPub nonce gw c payload env st hseal
    obtain ⟨padded, hpad, hsh, henv, hst⟩ :=
      sealJson_inv hmac x25519 stringify ephPriv ephPub nonce gw c payload env st hseal
    subst henv
    subst hst
    refine ⟨rfl, rfl, rfl, rfl, ?_⟩
    show makeAad 1 c .Request = [1, tokenClassId c, 1]
    rw [makeAad_eval]
    rfl
  · intro α parse e s p hopen
    obtain ⟨hv, htc, heph, hkey, hnonce, haad⟩ := openJson_ok_inv parse e s p hopen
    exact ⟨hkey, by rw [haad, makeAad_eval]; rfl⟩

theorem key_schedule_and_aad_bytes_witness :
    (hkdfInfo .C256 .Request =
      strBytes "zk-llm-gateway-envelope-v1/req" ++ [tokenClassId .C256]) ∧
    (deriveKey (fun _ _ => List.replicate 32 0) (List.replicate 32 7) .C512 .Response).length
      = 32 := by
  have h := key_schedule_and_aad_bytes (fun _ _ => List.replicate 32 0)
    (fun _ _ => List.replicate 32 0) (fun k m => by simp)
  exact ⟨(h.1 .C256).1, (h.2.1 (List.replicate 32 7) .C512 .Response).2⟩

/-! ## Claim C2 — open bindings -/

/-- C2: `openJson` throws `CryptoError` whenever `v ≠ 1`, whenever the
envelope's token class differs from the seal state's, and whenever the
ephemeral field differs byte-for-byte from the state's ephemeral public key —
the latter even when the ciphertext is a valid encryption under the correct
response key with the correct nonce and AAD. -/
theorem openJson_bindings :
    ∀ (α : Type) (parse : List Nat → Option α) (e : Envelope) (s : SealState),
      (e.v ≠ 1 → openJson parse e s = .error (.cryptoError "unsupported envelope version"))
      ∧ (e.token_class ≠ s.tokenClass →
          ∃ m, openJson parse e s = .error (.cryptoError m))
      ∧ (e.v = 1 → e.token_class ≠ s.tokenClass →
          openJson parse e s = .error (.cryptoError "token_class mismatch"))
      ∧ (∀ pt : List Nat,
          e.ciphertext =
            chacha20poly1305Encrypt s.respKey e.nonce pt (makeAad 1 e.token_class .Response) →
          e.eph_pubkey ≠ s.ephPubkey →
          ∃ m, openJson parse e s = .error (.cryptoError m)) :=
  fun _ parse e s =>
    ⟨openJson_v_ne parse e s,
     fun htc =>
       if hv : e.v = 1 then ⟨_, openJson_class_ne parse e s hv htc⟩
       else ⟨_, openJson_v_ne parse e s hv⟩,
     openJson_class_ne parse e s,
     fun _ _ h => openJson_eph_ne parse e s h⟩

theorem openJson_bindings_witness :
    openJson (fun _ => (none : Option Nat))
        { v := 2, token_class := .C256, eph_pubkey := List.replicate 32 0,
          nonce := List.replicate 12 0, ciphertext := ⟨[], [], [], []⟩ }
        { tokenClass := .C256, ephPubkey := List.replicate 32 0, reqKey := [], respKey := [9] }
      = .error (.cryptoError "unsupported envelope version") ∧
    (∃ m, openJson (fun _ => (none : Option Nat))
        { v := 1, token_class := .C512, eph_pubkey := List.replicate 32 0,
          nonce := List.replicate 12 0, ciphertext := ⟨[], [], [], []⟩ }
        { tokenClass := .C256, ephPubkey := List.replicate 32 0, reqKey := [], respKey := [9] }
      = .error (.cryptoError m)) ∧
    openJson (fun _ => (none : Option Nat))
        { v := 1, token_class := .C512, eph_pubkey := List.replicate 32 0,
          nonce := List.replicate 12 0, ciphertext := ⟨[], [], [], []⟩ }
        { tokenClass := .C256, ephPubkey := List.replicate 32 0, reqKey := [], respKey := [9] }
      = .error (.cryptoError "token_class mismatch") ∧
    ∃ m, openJson (fun _ => (none : Option Nat))
        { v := 1, token_class := .C256, eph_pubkey := List.replicate 32 1,
          nonce := List.replicate 12 0,
          ciphertext := chacha20poly1305Encrypt [9] (List.replicate 12 0) []
            (makeAad 1 .C256 .Response) }
        { tokenClass := .C256, ephPubkey := List.replicate 32 0, reqKey := [], respKey := [9] }
      = .error (.cryptoError m) :=
  ⟨(openJson_bindings Nat _ _ _).1 (by decide),
   (openJson_bindings Nat _ _ _).2.1 (by decide),
   (openJson_bindings Nat _ _ _).2.2.1 rfl (by decide),
   (openJson_bindings Nat _ _ _).2.2.2 [] rfl (by decide)⟩

/-! ## Claim C1 — response-shaped roundtrip -/

/-- C1: if `sealJson` produced a seal state, then a reply formed by encrypting
the response-padded serialized payload under the state's `respKey` with a
fresh 12-byte nonce and AAD `(1, id, 2)`, carried in an envelope with `v = 1`,
the same token class and the request envelope's ephemeral field byte-for-byte,
opens to the original payload. -/
theorem response_shaped_roundtrip :
    ∀ (α : Type) (hmac x25519 : List Nat → List Nat → List Nat)
      (stringify : α → List Nat) (parse : List Nat → Option α)
      (ephPriv ephPub nonceReq nonceResp gw : List Nat) (c : TokenClass)
      (reqPayload p : α) (env : Envelope) (st : SealState) (padded : List Nat),
      sealJson hmac x25519 stringify ephPriv ephPub nonceReq gw c reqPayload = .ok (env, st) →
      ephPub.length = 32 →
      nonceResp.length = 12 →
      (stringify p).length ≤ responsePaddedLen c - 8 →
      padPayload (stringify p) (responsePaddedLen c) = .ok padded →
      parse (stringify p) = some p →
      openJson parse
        { v := 1, token_class := c, eph_pubkey := env.eph_pubkey, nonce := nonceResp,
          ciphertext := chacha20poly1305Encrypt st.respKey nonceResp padded
            (makeAad 1 c .Response) } st = .ok p := by
  intro α hmac x25519 stringify parse ephPriv ephPub nonceReq nonceResp gw c
    reqPayload p env st padded hseal heph hnresp hlen hpad hparse
  obtain ⟨pd, hp, hsh, henv, hst⟩ :=
    sealJson_inv hmac x25519 stringify ephPriv ephPub nonceReq gw c reqPayload env st hseal
  subst henv
  subst hst
  exact openJson_eq_ok parse _ _ p (stringify p) rfl rfl rfl heph hnresp rfl rfl rfl
    (unpadPayload_of_padPayload _ _ _ hpad) hparse

theorem response_shaped_roundtrip_witness :
    openJson (fun l => if l = [48] then some (7 : Nat) else none)
      { v := 1, token_class := .C256, eph_pubkey := List.replicate 32 1,
        nonce := List.replicate 12 2,
        ciphertext := chacha20poly1305Encrypt
          (deriveKey (fun _ _ => List.replicate 32 0) (List.replicate 32 0) .C256 .Response)
          (List.replicate 12 2)
          (padBytes [48] (responsePaddedLen .C256))
          (makeAad 1 .C256 .Response) }
      { tokenClass := .C256, ephPubkey := List.replicate 32 1,
        reqKey := deriveKey (fun _ _ => List.replicate 32 0) (List.replicate 32 0) .C256 .Request,
        respKey := deriveKey (fun _ _ => List.replicate 32 0) (List.replicate 32 0) .C256 .Response }
      = .ok 7 := by
  have hseal := sealJson_eq_ok (fun _ _ => List.replicate 32 0) (fun _ _ => List.replicate 32 0)
    ((fun _ => [48]) : Nat → List Nat) (List.replicate 32 9) (List.replicate 32 1)
    (List.replicate 12 0) [] .C256 7 (by decide) (by decide)
  exact response_shaped_roundtrip Nat
    (fun _ _ => List.replicate 32 0) (fun _ _ => List.replicate 32 0)
    (fun _ => [48]) (fun l => if l = [48] then some (7 : Nat) else none)
    (List.replicate 32 9) (List.replicate 32 1) (List.replicate 12 0) (List.replicate 12 2)
    ([] : List Nat) .C256 7 7
    { v := 1, token_class := .C256, eph_pubkey := List.replicate 32 1,
      nonce := List.replicate 12 0,
      ciphertext := chacha20poly1305Encrypt
        (deriveKey (fun _ _ => List.replicate 32 0)
          ((fun _ _ => List.replicate 32 0) (List.replicate 32 9) ([] : List Nat))
          .C256 .Request)
        (List.replicate 12 0)
        (padBytes ((fun _ => ([48] : List Nat)) 7) (requestPaddedLen .C256))
        (makeAad 1 .C256 .Request) }
    { tokenClass := .C256, ephPubkey := List.replicate 32 1,
      reqKey := deriveKey (fun _ _ => List.replicate 32 0)
        ((fun _ _ => List.replicate 32 0) (List.replicate 32 9) ([] : List Nat)) .C256 .Request,
      respKey := deriveKey (fun _ _ => List.replicate 32 0)
        ((fun _ _ => List.replicate 32 0) (List.replicate 32 9) ([] : List Nat)) .C256 .Response }
    (padBytes [48] (responsePaddedLen .C256))
    hseal (by decide) (by decide) (by decide)
    (padPayload_eq_ok [48] (responsePaddedLen .C256) (responsePaddedLen_ge_8 _)
      (by decide) (by decide))
    (by decide)

/-! ## Claim C5 — envelope self-open -/

/-- Opening the very request envelope `sealJson` produced, with the retained
seal state, reaches the AEAD and fails there: the request ciphertext carries
AAD `(1, id, 1)` under `K_req`, while `openJson` authenticates with AAD
`(1, id, 2)` under `K_resp`.  Shared by the C5 theorem and counterexample. -/
theorem openJson_of_sealed_request (α : Type) (hmac x25519 : List Nat → List Nat → List Nat)
    (stringify : α → List Nat) (parse : List Nat → Option α)
    (ephPriv ephPub nonceReq gw : List Nat) (c : TokenClass) (payload : α)
    (env : Envelope) (st : SealState)
    (hseal : sealJson hmac x25519 stringify ephPriv ephPub nonceReq gw c payload = .ok (env, st))
    (heph : ephPub.length = 32) (hnl : nonceReq.length = 12) :
    openJson parse env st = .error (.cryptoError "decrypt failed") := by
  obtain ⟨padded, hpad, hsh, henv, hst⟩ :=
    sealJson_inv hmac x25519 stringify ephPriv ephPub nonceReq gw c payload env st hseal
  subst henv
  subst hst
  simp only [openJson, normalizeEnvelope_eq_ok]
  rw [if_neg (by simp), if_neg (by simp), if_neg (by simp [heph, hnl]), if_neg (by simp)]
  have hd : chacha20poly1305Decrypt
      (deriveKey hmac (x25519 ephPriv gw) c .Response) nonceReq
      (chacha20poly1305Encrypt (deriveKey hmac (x25519 ephPriv gw) c .Request) nonceReq padded
        (makeAad 1 c .Request))
      (makeAad 1 c .Response) = .error (.cryptoError "decrypt failed") := by
    simp only [chacha20poly1305Decrypt, chacha20poly1305Encrypt]
    rw [if_neg ?_]
    intro hcontra
    have h3 := hcontra.2.2
    rw [makeAad_eval, makeAad_eval] at h3
    simp [KeyDirection.val] at h3
  rw [hd]

/-- C5 (amended): sealing a payload and then opening the very same request
envelope with the retained seal state does not return the payload: it fails
with `CryptoError` (decrypt failure), because the request is encrypted under
`K_req` with direction byte 1 while `openJson` decrypts under `K_resp` with
direction byte 2.  (The successful roundtrip is the response-shaped one.) -/
theorem envelope_self_open_rejected :
    ∀ (α : Type) (hmac x25519 : List Nat → List Nat → List Nat)
      (stringify : α → List Nat) (parse : List Nat → Option α)
      (ephPriv ephPub nonceReq gw : List Nat) (c : TokenClass) (payload : α)
      (env : Envelope) (st : SealState),
      sealJson hmac x25519 stringify ephPriv ephPub nonceReq gw c payload = .ok (env, st) →
      ephPub.length = 32 →
      nonceReq.length = 12 →
      openJson parse env st = .error (.cryptoError "decrypt failed") :=
  fun α hmac x25519 stringify parse ephPriv ephPub nonceReq gw c payload env st h he hn =>
    openJson_of_sealed_request α hmac x25519 stringify parse ephPriv ephPub nonceReq gw c
      payload env st h he hn

/-- C5 counterexample: at a concrete sealed request, opening the same envelope
with the retained state yields `CryptoError`, not the original payload `7`. -/
theorem envelope_self_open_counterexample :
    (match sealJson (fun _ _ => List.replicate 32 0) (fun _ _ => List.replicate 32 0)
        ((fun _ => [48]) : Nat → List Nat) (List.replicate 32 9) (List.replicate 32 1)
        (List.replicate 12 0) [] .C256 7 with
      | .ok (env, st) => openJson (fun l => if l = [48] then some (7 : Nat) else none) env st
      | .error e => .error e)
      = .error (.cryptoError "decrypt failed") := by
  have hseal := sealJson_eq_ok (fun _ _ => List.replicate 32 0) (fun _ _ => List.replicate 32 0)
    ((fun _ => [48]) : Nat → List Nat) (List.replicate 32 9) (List.replicate 32 1)
    (List.replicate 12 0) [] .C256 7 (by decide) (by decide)
  rw [hseal]
  exact openJson_of_sealed_request Nat
    (fun _ _ => List.replicate 32 0) (fun _ _ => List.replicate 32 0)
    (fun _ => [48]) (fun l => if l = [48] then some (7 : Nat) else none)
    (List.replicate 32 9) (List.replicate 32 1) (List.replicate 12 0) ([] : List Nat) .C256 7
    { v := 1, token_class := .C256, eph_pubkey := List.replicate 32 1,
      nonce := List.replicate 12 0,
      ciphertext := chacha20poly1305Encrypt
        (deriveKey (fun _ _ => List.replicate 32 0)
          ((fun _ _ => List.replicate 32 0) (List.replicate 32 9) ([] : List Nat))
          .C256 .Request)
        (List.replicate 12 0)
        (padBytes ((fun _ => ([48] : List Nat)) 7) (requestPaddedLen .C256))
        (makeAad 1 .C256 .Request) }
    { tokenClass := .C256, ephPubkey := List.replicate 32 1,
      reqKey := deriveKey (fun _ _ => List.replicate 32 0)
        ((fun _ _ => List.replicate 32 0) (List.replicate 32 9) ([] : List Nat)) .C256 .Request,
      respKey := deriveKey (fun _ _ => List.replicate 32 0)
        ((fun _ _ => List.replicate 32 0) (List.replicate 32 9) ([] : List Nat)) .C256 .Response }
    hseal (by decide) (by decide)

theorem envelope_self_open_rejected_witness :
    openJson (fun l => if l = [48] then some (7 : Nat) else none)
      { v := 1, token_class := .C256, eph_pubkey := List.replicate 32 1,
        nonce := List.replicate 12 0,
        ciphertext := chacha20poly1305Encrypt
          (deriveKey (fun _ _ => List.replicate 32 0) (List.replicate 32 0) .C256 .Request)
          (List.replicate 12 0)
          (padBytes [48] (requestPaddedLen .C256))
          (makeAad 1 .C256 .Request) }
      { tokenClass := .C256, ephPubkey := List.replicate 32 1,
        reqKey := deriveKey (fun _ _ => List.replicate 32 0) (List.replicate 32 0) .C256 .Request,
        respKey := deriveKey (fun _ _ => List.replicate 32 0) (List.replicate 32 0) .C256 .Response }
      = .error (.cryptoError "decrypt failed") := by
  have hseal := sealJson_eq_ok (fun _ _ => List.replicate 32 0) (fun _ _ => List.replicate 32 0)
    ((fun _ => [48]) : Nat → List Nat) (List.replicate 32 9) (List.replicate 32 1)
    (List.replicate 12 0) [] .C256 7 (by decide) (by decide)
  exact envelope_self_open_rejected Nat
    (fun _ _ => List.replicate 32 0) (fun _ _ => List.replicate 32 0)
    (fun _ => [48]) (fun l => if l = [48] then some (7 : Nat) else none)
    (List.replicate 32 9) (List.replicate 32 1) (List.replicate 12 0) ([] : List Nat) .C256 7
    { v := 1, token_class := .C256, eph_pubkey := List.replicate 32 1,
      nonce := List.replicate 12 0,
      ciphertext := chacha20poly1305Encrypt
        (deriveKey (fun _ _ => List.replicate 32 0)
          ((fun _ _ => List.replicate 32 0) (List.replicate 32 9) ([] : List Nat))
          .C256 .Request)
        (List.replicate 12 0)
        (padBytes ((fun _ => ([48] : List Nat)) 7) (requestPaddedLen .C256))
        (makeAad 1 .C256 .Request) }
    { tokenClass := .C256, ephPubkey := List.replicate 32 1,
      reqKey := deriveKey (fun _ _ => List.replicate 32 0)
        ((fun _ _ => List.replicate 32 0) (List.replicate 32 9) ([] : List Nat)) .C256 .Request,
      respKey := deriveKey (fun _ _ => List.replicate 32 0)
        ((fun _ _ => List.replicate 32 0) (List.replicate 32 9) ([] : List Nat)) .C256 .Response }
    hseal (by decide) (by decide)

/-! ## Claim C7 — reply-interpretation precedence -/

/-- C7: a decrypted `kind:"err"` object raises `GatewayError(code, message)`
regardless of the HTTP status, and `HttpError(status)` is raised only when the
status is not 2xx and the decrypted object is neither a tagged union nor a
legacy error-carrying object. -/
theorem reply_interpretation_precedence :
    (∀ (status : Nat) (code msg : String),
      interpretReply status
        (.obj [("kind", .str "err"),
               ("error", .obj [("code", .str code), ("message", .str msg)])])
        = .error (.gatewayErrorJs code msg))
    ∧ (∀ (status : Nat) (d : JsValue) (m : String),
        interpretReply status d = .error (.httpError status m) →
        (status < 200 ∨ 300 ≤ status) ∧ parseGatewayPayload d = none ∧
          legacyError d = none) := by
  constructor
  · intro status code msg
    rfl
  · intro status d m h
    simp only [interpretReply] at h
    cases hp : parseGatewayPayload d with
    | some payload =>
      rw [hp] at h
      cases payload with
      | ok r => dsimp only at h; simp at h
      | err e => dsimp only at h; simp at h
    | none =>
      rw [hp] at h
      dsimp only at h
      cases hl : legacyError d with
      | some p =>
        obtain ⟨code, msg⟩ := p
        rw [hl] at h
        dsimp only at h
        simp at h
      | none =>
        rw [hl] at h
        dsimp only at h
        by_cases hs : status < 200 ∨ 300 ≤ status
        · exact ⟨hs, rfl, rfl⟩
        · rw [if_neg hs] at h
          cases hu : upstreamField d with
          | some v => rw [hu] at h; simp at h
          | none => rw [hu] at h; simp at h

theorem reply_interpretation_precedence_witness :
    interpretReply 500
      (.obj [("kind", .str "err"),
             ("error", .obj [("code", .str "rate_limited"), ("message", .str "slow down")])])
      = .error (.gatewayErrorJs "rate_limited" "slow down") ∧
    ((500 < 200 ∨ 300 ≤ 500) ∧ parseGatewayPayload (.obj [("status", .str "odd")]) = none ∧
      legacyError (.obj [("status", .str "odd")]) = none) :=
  ⟨reply_interpretation_precedence.1 500 "rate_limited" "slow down",
   reply_interpretation_precedence.2 500 (.obj [("status", .str "odd")])
     (String.append "gateway returned HTTP " (toString 500)) rfl⟩

/-! ## Claim C8 — ticket selection and single use -/

theorem selectIdx_some_lt (c : TokenClass) (pool : List JsValue) (i : Nat)
    (h : selectIdx c pool = some i) : i < pool.length := by
  unfold selectIdx at h
  cases hx : findIndex (classMatches c) pool with
  | some j =>
    rw [hx] at h
    simp only [Option.orElse] at h
    cases h
    exact findIndex_some_lt _ _ _ hx
  | none =>
    rw [hx] at h
    simp only [Option.orElse] at h
    exact findIndex_some_lt _ _ _ h

theorem selectIdx_some_sel (c : TokenClass) (pool : List JsValue) (i : Nat) (raw : JsValue)
    (h : selectIdx c pool = some i) (hg : pool.get? i = some raw) :
    classMatches c raw = true ∨ untypedEntry raw = true := by
  unfold selectIdx at h
  cases hx : findIndex (classMatches c) pool with
  | some j =>
    rw [hx] at h
    simp only [Option.orElse] at h
    cases h
    obtain ⟨a, ha, hpa⟩ := findIndex_some_get _ _ _ hx
    rw [hg] at ha
    cases ha
    exact .inl hpa
  | none =>
    rw [hx] at h
    simp only [Option.orElse] at h
    obtain ⟨a, ha, hpa⟩ := findIndex_some_get _ _ _ h
    rw [hg] at ha
    cases ha
    exact .inr hpa

/-- C8: `nextTicket` selects the first class-matching entry, else the first
untyped entry (stamped with the requested class), else throws
`TicketExhausted`; a selected entry is removed from the pool before return
(pool shrinks by exactly one), and a returned ticket is the normalization of
the removed occurrence, so later calls — operating on the shrunk pool — can
never return it again. -/
theorem nextTicket_selection_single_use :
    ∀ (c : TokenClass) (pool : List JsValue),
      (selectIdx c pool = none →
        nextTicket c pool = (.error (.ticketExhausted "ticket pool exhausted"), pool))
      ∧ (∀ i, selectIdx c pool = some i →
          i < pool.length ∧ (nextTicket c pool).2 = pool.eraseIdx i ∧
          (nextTicket c pool).2.length + 1 = pool.length)
      ∧ (∀ i raw t, selectIdx c pool = some i → pool.get? i = some raw →
          normalizeTicket raw c = .ok t →
          t.token_class = c ∧ nextTicket c pool = (.ok t, pool.eraseIdx i))
      ∧ (∀ t pool2, nextTicket c pool = (.ok t, pool2) →
          ∃ i raw, selectIdx c pool = some i ∧ pool.get? i = some raw ∧
            normalizeTicket raw c = .ok t ∧ t.token_class = c ∧
            pool2 = pool.eraseIdx i ∧ pool2.length + 1 = pool.length)
      ∧ (∀ i, findIndex (classMatches c) pool = some i →
          ∀ j b, j < i → pool.get? j = some b → classMatches c b = false) := by
  intro c pool
  refine ⟨?_, ?_, ?_, ?_, ?_⟩
  · intro h
    unfold nextTicket
    rw [h]
  · intro i h
    have hlt := selectIdx_some_lt c pool i h
    obtain ⟨raw, hget⟩ : ∃ raw, pool.get? i = some raw := by
      rw [List.get?_eq_get hlt]
      exact ⟨_, rfl⟩
    have hsnd : (nextTicket c pool).2 = pool.eraseIdx i := by
      unfold nextTicket
      rw [h]
      dsimp only
      rw [hget]
      dsimp only
      cases hn : normalizeTicket raw c with
      | error m => rfl
      | ok t =>
        dsimp only
        split_ifs with hm
        · rfl
        · rfl
    refine ⟨hlt, hsnd, ?_⟩
    rw [hsnd]
    exact List.length_eraseIdx_add_one hlt
  · intro i raw t h hget hn
    have hstamp := normalizeTicket_stamped c raw t (selectIdx_some_sel c pool i raw h hget) hn
    refine ⟨hstamp, ?_⟩
    unfold nextTicket
    rw [h]
    dsimp only
    rw [hget]
    dsimp only
    rw [hn]
    dsimp only
    rw [if_neg (by simp [hstamp])]
  · intro t pool2 h
    unfold nextTicket at h
    cases hs : selectIdx c pool with
    | none =>
      rw [hs] at h
      simp only [Prod.mk.injEq] at h
      exact absurd h.1 (by simp)
    | some i =>
      rw [hs] at h
      dsimp only at h
      cases hg : pool.get? i with
      | none =>
        rw [hg] at h
        simp only [Prod.mk.injEq] at h
        exact absurd h.1 (by simp)
      | some raw =>
        rw [hg] at h
        dsimp only at h
        cases hn : normalizeTicket raw c with
        | error m =>
          rw [hn] at h
          simp only [Prod.mk.injEq] at h
          exact absurd h.1 (by simp)
        | ok ticket =>
          rw [hn] at h
          dsimp only at h
          split_ifs at h with hm
          · simp only [Prod.mk.injEq] at h
            exact absurd h.1 (by simp)
          · simp only [Prod.mk.injEq] at h
            obtain ⟨h1, h2⟩ := h
            have ht : ticket = t := Except.ok.inj h1
            subst ht
            have hlt := selectIdx_some_lt c pool i hs
            refine ⟨i, raw, rfl, hg, hn, by simpa using hm, h2.symm, ?_⟩
            rw [← h2]
            exact List.length_eraseIdx_add_one hlt
  · intro i hfi j b hj hb
    exact findIndex_some_first (classMatches c) pool i hfi j b hj hb

theorem nextTicket_selection_single_use_witness :
    (⟨b64Zeros32, "bb", .C2048, ""⟩ : ZkTicket).token_class = .C2048 ∧
    nextTicket .C2048
      [.obj [("token_class", .str "c1024"), ("nullifier", .str "aa")],
       .obj [("token_class", .str "c2048"), ("nullifier", .str "bb")]] =
      (.ok ⟨b64Zeros32, "bb", .C2048, ""⟩,
       [.obj [("token_class", .str "c1024"), ("nullifier", .str "aa")]]) :=
  (nextTicket_selection_single_use .C2048
    [.obj [("token_class", .str "c1024"), ("nullifier", .str "aa")],
     .obj [("token_class", .str "c2048"), ("nullifier", .str "bb")]]).2.2.1
    1 (.obj [("token_class", .str "c2048"), ("nullifier", .str "bb")])
    ⟨b64Zeros32, "bb", .C2048, ""⟩ rfl rfl rfl

/-! ## Claim C10 — malformed selected entry still consumed -/

/-- C10: when the selected pool entry fails normalization, the call throws
`TicketExhausted` carrying the parse reason, yet the entry was already spliced
out, so the pool still shrinks by one on the failed call. -/
theorem nextTicket_malformed_entry_consumed :
    ∀ (c : TokenClass) (pool : List JsValue) (i : Nat) (raw : JsValue) (msg : String),
      selectIdx c pool = some i → pool.get? i = some raw →
      normalizeTicket raw c = .error msg →
      nextTicket c pool =
        (.error (.ticketExhausted (String.append "invalid ticket entry: " msg)),
         pool.eraseIdx i) ∧
      (pool.eraseIdx i).length + 1 = pool.length := by
  intro c pool i raw msg hs hg hn
  refine ⟨?_, List.length_eraseIdx_add_one (selectIdx_some_lt c pool i hs)⟩
  unfold nextTicket
  rw [hs]
  dsimp only
  rw [hg]
  dsimp only
  rw [hn]

theorem nextTicket_malformed_entry_consumed_witness :
    nextTicket .C512 [.obj [("token_class", .str "c512")]] =
      (.error (.ticketExhausted
        (String.append "invalid ticket entry: " "ticket missing nullifier/nullifier_b64")),
       []) ∧
    ([] : List JsValue).length + 1 = 1 :=
  nextTicket_malformed_entry_consumed .C512 [.obj [("token_class", .str "c512")]] 0
    (.obj [("token_class", .str "c512")]) "ticket missing nullifier/nullifier_b64"
    rfl rfl rfl

/-! ## Claim C9 — max_tokens defaulting -/

theorem parseChatRequest_of_shape (input : JsValue) (h : isChatShape input = true) :
    parseChatRequest input = .ok input := by
  rw [parseChatRequest, if_pos h]

theorem lookupField_setField_same (fields : List (String × JsValue)) (key : String)
    (v : JsValue) : lookupField (setField fields key v) key = some v := by
  induction fields with
  | nil => simp [setField, lookupField]
  | cons kv rest ih =>
    obtain ⟨k, w⟩ := kv
    simp only [setField]
    split_ifs with hk
    · simp [lookupField]
    · simp only [lookupField]
      rw [if_neg hk]
      exact ih

theorem lookupField_setField_ne (fields : List (String × JsValue)) (key setKey : String)
    (v : JsValue) (h : setKey ≠ key) :
    lookupField (setField fields setKey v) key = lookupField fields key := by
  induction fields with
  | nil => simp [setField, lookupField, h]
  | cons kv rest ih =>
    obtain ⟨k, w⟩ := kv
    simp only [setField]
    split_ifs with hk
    · subst hk
      simp only [lookupField]
      rw [if_neg h, if_neg h]
    · simp only [lookupField]
      by_cases hkey : k = key
      · rw [if_pos hkey, if_pos hkey]
      · rw [if_neg hkey, if_neg hkey]
        exact ih

/-- C9 counterexample: a direct `inferJsonWithTicket` call whose upstream chat
payload omits `max_tokens` seals an `InferenceRequest` with no `max_tokens`
at all — not one defaulted to `maxOutputTokensHint`; the defaulting happens
only in `chatCompletions`. -/
theorem max_tokens_defaulting_counterexample :
    inferPlaintext .C1024 ⟨b64Zeros32, "n", .C1024, ""⟩ "rid"
        (.obj [("model", .str "m"), ("messages", .arr [])]) =
      .ok { request_id := "rid", model := some (.str "m"), messages := some (.arr []),
            max_tokens := none, temperature := none, token_class := .C1024,
            ticket := ⟨b64Zeros32, "n", .C1024, ""⟩ } ∧
    ({ request_id := "rid", model := some (.str "m"), messages := some (.arr []),
       max_tokens := none, temperature := none, token_class := .C1024,
       ticket := ⟨b64Zeros32, "n", .C1024, ""⟩ } : InferenceRequest).max_tokens
      ≠ some (.num (maxOutputTokensHint .C1024)) := by
  have hA : inferPlaintext .C1024 ⟨b64Zeros32, "n", .C1024, ""⟩ "rid"
      (.obj [("model", .str "m"), ("messages", .arr [])]) =
      .ok { request_id := "rid", model := some (.str "m"), messages := some (.arr []),
            max_tokens := none, temperature := none, token_class := .C1024,
            ticket := ⟨b64Zeros32, "n", .C1024, ""⟩ } := by
    unfold inferPlaintext
    rw [if_neg (by decide), parseChatRequest_of_shape _ (by decide)]
    rfl
  exact ⟨hA, fun hmax => Option.noConfusion hmax⟩

/-- C9 (amended): for every `chatCompletions` call at class `c` whose request
omits `max_tokens`, the mutated request handed to `inferJson` — and hence the
plaintext `InferenceRequest` sealed into the envelope — carries
`max_tokens = maxOutputTokensHint(c)`.  Direct `inferJson` /
`inferJsonWithTicket` calls do not default the field.  (The hypothesis also
admits an explicit `null` value, the other spelling the
`=== undefined || === null` test of `chatCompletions` accepts, so both
branches of `applyMaxTokensDefault` are covered.) -/
theorem max_tokens_defaulting_amended :
    ∀ (c : TokenClass) (tk : ZkTicket) (rid : String)
      (fields : List (String × JsValue)),
      tk.token_class = c →
      isChatShape (.obj fields) = true →
      (lookupField fields "max_tokens" = none ∨
        lookupField fields "max_tokens" = some .null) →
      ∃ r, inferPlaintext c tk rid (applyMaxTokensDefault c (.obj fields)) = .ok r ∧
        r.max_tokens = some (.num (maxOutputTokensHint c)) := by
  intro c tk rid fields htk hshape habsent
  have happ : applyMaxTokensDefault c (.obj fields) =
      .obj (setField fields "max_tokens" (.num (maxOutputTokensHint c))) := by
    rcases habsent with h | h <;> simp only [applyMaxTokensDefault] <;> rw [h]
  have hshape2 : isChatShape
      (.obj (setField fields "max_tokens" (.num (maxOutputTokensHint c)))) = true := by
    simp only [isChatShape, isObject, jsField, Bool.true_and] at hshape ⊢
    rw [lookupField_setField_ne fields "model" "max_tokens" _ (by decide),
      lookupField_setField_ne fields "messages" "max_tokens" _ (by decide)]
    exact hshape
  refine ⟨buildInferenceRequest rid c tk
    (.obj (setField fields "max_tokens" (.num (maxOutputTokensHint c)))), ?_, ?_⟩
  · unfold inferPlaintext
    rw [if_neg (by simp [htk]), happ, parseChatRequest_of_shape _ hshape2]
  · simp only [buildInferenceRequest, jsField]
    exact lookupField_setField_same fields "max_tokens" _

theorem max_tokens_defaulting_amended_witness :
    ∃ r, inferPlaintext .C2048 ⟨b64Zeros32, "n", .C2048, ""⟩ "rid"
        (applyMaxTokensDefault .C2048 (.obj [("model", .str "m"), ("messages", .arr [])]))
      = .ok r ∧
      r.max_tokens = some (.num (maxOutputTokensHint .C2048)) :=
  max_tokens_defaulting_amended .C2048 ⟨b64Zeros32, "n", .C2048, ""⟩ "rid"
    [("model", .str "m"), ("messages", .arr [])] rfl (by decide) (Or.inl rfl)

end ZkGateway
